import Mathlib

/-!
Shallow embedding of the orbital-mechanics engine of the `fkgpt-portfolio`
repository (file `src/components/SpaceSimulation.tsx`), over the real numbers,
together with theorems settling the specification claims about it.

The JavaScript code computes with IEEE doubles; the embedding models the same
algorithms over `ℝ` (exact real arithmetic), keeping the source's structure:
the Newton iterations with their step-size break condition and 100-iteration
cap, the JS truncated-division remainder operator `%`, `Math.atan2`, the
orbital-plane-to-heliocentric rotation, the per-body state providers, the
hyperbolic path sampler, and the simulation clock transitions.
-/

namespace FkgptOrbit

/-- JavaScript `Math.atan2 y x`: the angle of the point `(x, y)` in `(-π, π]`,
with the JS conventions `atan2 0 x = 0` for `x > 0` and `atan2 0 0 = 0`. -/
noncomputable def atan2 (y x : ℝ) : ℝ :=
  if 0 < x then Real.arctan (y / x)
  else if x < 0 then
    (if 0 ≤ y then Real.arctan (y / x) + Real.pi else Real.arctan (y / x) - Real.pi)
  else
    (if 0 < y then Real.pi / 2 else if y < 0 then -(Real.pi / 2) else 0)

/-- JavaScript `Math.trunc`: rounding toward zero, as a map `ℝ → ℝ`. -/
noncomputable def jsTrunc (x : ℝ) : ℝ :=
  if 0 ≤ x then (⌊x⌋ : ℝ) else (⌈x⌉ : ℝ)

/-- The JavaScript remainder operator `a % m`: `a - m * trunc (a / m)`,
whose result carries the sign of the dividend `a`. -/
noncomputable def jsMod (a m : ℝ) : ℝ := a - m * jsTrunc (a / m)

/-- Source constant: the default Newton-Raphson step tolerance `1e-8`
(`tol` parameter of both solvers). -/
noncomputable def keplerTol : ℝ := 1e-8

/-- The denominator `1 - e * cos E` of the elliptical Newton step
(line 103 of `SpaceSimulation.tsx`). -/
noncomputable def ellipseDenom (e E : ℝ) : ℝ := 1 - e * Real.cos E

/-- The denominator `e * cosh H - 1` of the hyperbolic Newton step
(line 114 of `SpaceSimulation.tsx`). -/
noncomputable def hyperbolaDenom (e H : ℝ) : ℝ := e * Real.cosh H - 1

/-- The elliptical Newton-Raphson step `dE = (E - e*sin E - M) / (1 - e*cos E)`. -/
noncomputable def ellipseStep (M e E : ℝ) : ℝ :=
  (E - e * Real.sin E - M) / ellipseDenom e E

/-- The hyperbolic Newton-Raphson step `dH = (e*sinh H - H - M) / (e*cosh H - 1)`. -/
noncomputable def hyperbolaStep (M e H : ℝ) : ℝ :=
  (e * Real.sinh H - H - M) / hyperbolaDenom e H

/-- The loop body of `solveKeplerEllipse`, with explicit fuel: each pass
computes `dE`, updates `E -= dE`, and breaks when `|dE| < tol`
(returning the already-updated `E`, as the source does). -/
noncomputable def keplerELoop (M e tol : ℝ) : ℕ → ℝ → ℝ
  | 0, E => E
  | n + 1, E =>
    let dE := ellipseStep M e E
    let E1 := E - dE
    if |dE| < tol then E1 else keplerELoop M e tol n E1

/-- `solveKeplerEllipse(M, e)` from the source: Newton-Raphson from initial
guess `E₀ = M`, default tolerance `1e-8`, hard cap of 100 iterations. -/
noncomputable def solveKeplerEllipse (M e : ℝ) : ℝ :=
  keplerELoop M e keplerTol 100 M

/-- The loop body of `solveKeplerHyperbola`, with explicit fuel, mirroring
the source: update `H -= dH`, break when `|dH| < tol`. -/
noncomputable def keplerHLoop (M e tol : ℝ) : ℕ → ℝ → ℝ
  | 0, H => H
  | n + 1, H =>
    let dH := hyperbolaStep M e H
    let H1 := H - dH
    if |dH| < tol then H1 else keplerHLoop M e tol n H1

/-- `solveKeplerHyperbola(M, e)` from the source: Newton-Raphson from initial
guess `H₀ = M`, default tolerance `1e-8`, hard cap of 100 iterations. -/
noncomputable def solveKeplerHyperbola (M e : ℝ) : ℝ :=
  keplerHLoop M e keplerTol 100 M

/-- `trueAnomalyFromE(E, e)` from the source: half-angle arctangent formulas,
elliptical branch for `e < 1`, hyperbolic branch otherwise. -/
noncomputable def trueAnomalyFromE (E e : ℝ) : ℝ :=
  if e < 1 then
    2 * atan2 (Real.sqrt (1 + e) * Real.sin (E / 2))
              (Real.sqrt (1 - e) * Real.cos (E / 2))
  else
    2 * atan2 (Real.sqrt (e + 1) * Real.sinh (E / 2))
              (Real.sqrt (e - 1) * Real.cosh (E / 2))

/-- A 3D vector, standing for `THREE.Vector3`. -/
structure Vec3 where
  x : ℝ
  y : ℝ
  z : ℝ

/-- `THREE.Vector3.length()`: the Euclidean norm. -/
noncomputable def Vec3.length (v : Vec3) : ℝ :=
  Real.sqrt (v.x ^ 2 + v.y ^ 2 + v.z ^ 2)

/-- Source constant `AU_SCALE = 2`: scene units per astronomical unit. -/
noncomputable def AU_SCALE : ℝ := 2

/-- Source constant `DEG_TO_RAD = Math.PI / 180`. -/
noncomputable def DEG_TO_RAD : ℝ := Real.pi / 180

/-- The radius computed inside `calculateOrbitalPosition` (lines 148-154):
`a = |semiMajorAxis|`, then the conic equation with the elliptical numerator
`a(1-e²)` for `e < 1` and the hyperbolic numerator `a(e²-1)` otherwise. -/
noncomputable def orbitalRadius (semiMajorAxis e nu : ℝ) : ℝ :=
  let a := |semiMajorAxis|
  if e < 1 then a * (1 - e * e) / (1 + e * Real.cos nu)
  else a * (e * e - 1) / (1 + e * Real.cos nu)

/-- `calculateOrbitalPosition` from the source: conic radius, orbital-plane
coordinates, the three-angle rotation (argument of perihelion ω, ascending
node Ω, inclination i, all given in degrees), and the final axis swap and
AU scaling `(x*AU_SCALE, z*AU_SCALE, y*AU_SCALE)`. -/
noncomputable def calculateOrbitalPosition
    (semiMajorAxis eccentricity trueAnomaly argOfPerihelion longOfAscNode
     inclin : ℝ) : Vec3 :=
  let r := orbitalRadius semiMajorAxis eccentricity trueAnomaly
  let xOrbital := r * Real.cos trueAnomaly
  let yOrbital := r * Real.sin trueAnomaly
  let omega := argOfPerihelion * DEG_TO_RAD
  let Omega := longOfAscNode * DEG_TO_RAD
  let i := inclin * DEG_TO_RAD
  let cosOmega := Real.cos Omega
  let sinOmega := Real.sin Omega
  let cosomega := Real.cos omega
  let sinomega := Real.sin omega
  let cosi := Real.cos i
  let sini := Real.sin i
  let x := (cosOmega * cosomega - sinOmega * sinomega * cosi) * xOrbital +
      (-cosOmega * sinomega - sinOmega * cosomega * cosi) * yOrbital
  let y := (sinOmega * cosomega + cosOmega * sinomega * cosi) * xOrbital +
      (-sinOmega * sinomega + cosOmega * cosomega * cosi) * yOrbital
  let z := (sinomega * sini) * xOrbital + (cosomega * sini) * yOrbital
  ⟨x * AU_SCALE, z * AU_SCALE, y * AU_SCALE⟩

/-- The heliocentric coordinates `(x, y, z)` computed by lines 173-177 of
`calculateOrbitalPosition`, before the axis swap and AU scaling of line 179. -/
noncomputable def helioCoords
    (semiMajorAxis eccentricity trueAnomaly argOfPerihelion longOfAscNode
     inclin : ℝ) : ℝ × ℝ × ℝ :=
  let r := orbitalRadius semiMajorAxis eccentricity trueAnomaly
  let xOrbital := r * Real.cos trueAnomaly
  let yOrbital := r * Real.sin trueAnomaly
  let omega := argOfPerihelion * DEG_TO_RAD
  let Omega := longOfAscNode * DEG_TO_RAD
  let i := inclin * DEG_TO_RAD
  let cosOmega := Real.cos Omega
  let sinOmega := Real.sin Omega
  let cosomega := Real.cos omega
  let sinomega := Real.sin omega
  let cosi := Real.cos i
  let sini := Real.sin i
  let x := (cosOmega * cosomega - sinOmega * sinomega * cosi) * xOrbital +
      (-cosOmega * sinomega - sinOmega * cosomega * cosi) * yOrbital
  let y := (sinOmega * cosomega + cosOmega * sinomega * cosi) * xOrbital +
      (-sinOmega * sinomega + cosOmega * cosomega * cosi) * yOrbital
  let z := (sinomega * sini) * xOrbital + (cosomega * sini) * yOrbital
  (x, y, z)

/-- The static orbital elements of one entry of the source's `PLANETS` table. -/
structure PlanetData where
  semiMajorAxis : ℝ
  eccentricity : ℝ
  period : ℝ
  orbitalInclination : ℝ

/-- Mercury's row of the `PLANETS` table. -/
noncomputable def mercury : PlanetData := ⟨0.387, 0.206, 88, 7.0⟩

/-- Venus's row of the `PLANETS` table. -/
noncomputable def venus : PlanetData := ⟨0.723, 0.007, 225, 3.4⟩

/-- Earth's row of the `PLANETS` table. -/
noncomputable def earth : PlanetData := ⟨1.000, 0.017, 365.25, 0⟩

/-- Mars's row of the `PLANETS` table. -/
noncomputable def mars : PlanetData := ⟨1.524, 0.093, 687, 1.9⟩

/-- Jupiter's row of the `PLANETS` table. -/
noncomputable def jupiter : PlanetData := ⟨5.203, 0.049, 4333, 1.3⟩

/-- The source's `PLANETS` table (orbital elements only). -/
noncomputable def PLANETS : List PlanetData := [mercury, venus, earth, mars, jupiter]

/-- The planet provider's mean anomaly (lines 232-233 of the source):
mean motion `n = 2π/period`, then `M = (n * simulationTime) % (2π)` with the
JS remainder operator. -/
noncomputable def planetMeanAnomaly (p : PlanetData) (t : ℝ) : ℝ :=
  jsMod (2 * Real.pi / p.period * t) (2 * Real.pi)

/-- The planet provider (`Planet` component, lines 229-250): mean anomaly,
elliptical Kepler solve, true anomaly, then the transform with ω = Ω = 0 and
the tabulated inclination. -/
noncomputable def planetPosition (p : PlanetData) (t : ℝ) : Vec3 :=
  calculateOrbitalPosition p.semiMajorAxis p.eccentricity
    (trueAnomalyFromE (solveKeplerEllipse (planetMeanAnomaly p t) p.eccentricity)
      p.eccentricity)
    0 0 p.orbitalInclination

/-- The planet's unscaled heliocentric radius: scene distance divided by
`AU_SCALE`, as the comet provider computes it for itself. -/
noncomputable def planetHelioRadius (p : PlanetData) (t : ℝ) : ℝ :=
  (planetPosition p t).length / AU_SCALE

/-- `ATLAS_ORBITAL_ELEMENTS.semiMajorAxis` (AU; negative encodes hyperbolic). -/
noncomputable def ATLAS_semiMajorAxis : ℝ := -0.26391591751781

/-- `ATLAS_ORBITAL_ELEMENTS.eccentricity`. -/
noncomputable def ATLAS_eccentricity : ℝ := 6.139

/-- `ATLAS_ORBITAL_ELEMENTS.argumentOfPerihelion` (degrees). -/
noncomputable def ATLAS_argumentOfPerihelion : ℝ := 128.01

/-- `ATLAS_ORBITAL_ELEMENTS.longitudeOfAscendingNode` (degrees). -/
noncomputable def ATLAS_longitudeOfAscendingNode : ℝ := 322.16

/-- `ATLAS_ORBITAL_ELEMENTS.inclination` (degrees). -/
noncomputable def ATLAS_inclina : ℝ := 175.0

/-- `new Date('2025-07-01').getTime()`: the simulation epoch, in Unix
milliseconds (midnight UTC, July 1 2025). -/
noncomputable def epochMs : ℝ := 1751328000000

/-- `ATLAS_ORBITAL_ELEMENTS.perihelionDate.getTime()`: 2025-10-29T12:00:00Z
in Unix milliseconds, which is 120.5 days after the epoch. -/
noncomputable def perihelionMs : ℝ := 1761739200000

/-- The Sun's gravitational parameter μ in km³/s² (line 320 of the source). -/
noncomputable def sunMu : ℝ := 132712440041.93938

/-- Kilometres per astronomical unit (the source's literal `149597870.7`). -/
noncomputable def KM_PER_AU : ℝ := 149597870.7

/-- `daysSincePerihelion` as the comet provider computes it (lines 314-316):
current calendar instant from the epoch plus `simulationTime` days, minus the
perihelion instant, converted back to days. -/
noncomputable def cometDaysSincePerihelion (t : ℝ) : ℝ :=
  (epochMs + t * 24 * 60 * 60 * 1000 - perihelionMs) / (24 * 60 * 60 * 1000)

/-- The comet's hyperbolic mean motion `n = √(μ/(a·km_per_AU)³)` in rad/s
(lines 319-321), with `a = |semiMajorAxis|`. -/
noncomputable def cometMeanMotion : ℝ :=
  Real.sqrt (sunMu / (|ATLAS_semiMajorAxis| * KM_PER_AU) ^ 3)

/-- The comet's mean anomaly `M = n * daysSincePerihelion * 24*60*60`
(line 324). -/
noncomputable def cometMeanAnomaly (t : ℝ) : ℝ :=
  cometMeanMotion * cometDaysSincePerihelion t * (24 * 60 * 60)

/-- The comet provider's position (`Comet` component, lines 313-341):
hyperbolic Kepler solve, true anomaly, full three-angle transform. -/
noncomputable def cometPosition (t : ℝ) : Vec3 :=
  calculateOrbitalPosition ATLAS_semiMajorAxis ATLAS_eccentricity
    (trueAnomalyFromE
      (solveKeplerHyperbola (cometMeanAnomaly t) ATLAS_eccentricity)
      ATLAS_eccentricity)
    ATLAS_argumentOfPerihelion ATLAS_longitudeOfAscendingNode ATLAS_inclina

/-- The comet provider's `distanceFromSun = pos.length() / AU_SCALE`
(line 343). -/
noncomputable def cometDistanceFromSun (t : ℝ) : ℝ :=
  (cometPosition t).length / AU_SCALE

/-- The hyperbolic path sampler's anomaly bound
`nuMax = acos(-1/e) * 0.95` (line 436). -/
noncomputable def cometPathNuMax : ℝ :=
  Real.arccos (-1 / ATLAS_eccentricity) * 0.95

/-- The sampler's k-th true anomaly: loop index `i = k - 100` runs from
`-100` to `100`, and `nu = (i/100) * nuMax` (lines 438-439). -/
noncomputable def cometPathNu (k : ℕ) : ℝ :=
  (((k : ℝ) - 100) / 100) * cometPathNuMax

/-- The sampler's radius `r = a(e²-1)/(1+e·cos ν)` with `a = |semiMajorAxis|`
(line 440). -/
noncomputable def cometPathRadius (nu : ℝ) : ℝ :=
  |ATLAS_semiMajorAxis| * (ATLAS_eccentricity * ATLAS_eccentricity - 1) /
    (1 + ATLAS_eccentricity * Real.cos nu)

open Classical in
/-- The `CometOrbitPath` polyline (lines 429-455): 201 candidate anomalies,
each emitted only when its radius satisfies `0 < r ∧ r < 20`. -/
noncomputable def cometPathPoints : List Vec3 :=
  (List.range 201).filterMap (fun k =>
    if 0 < cometPathRadius (cometPathNu k) ∧ cometPathRadius (cometPathNu k) < 20 then
      some (calculateOrbitalPosition ATLAS_semiMajorAxis ATLAS_eccentricity
        (cometPathNu k) ATLAS_argumentOfPerihelion
        ATLAS_longitudeOfAscendingNode ATLAS_inclina)
    else none)

/-- The simulation clock's state: `simulationTime` (days from the epoch),
the play/pause flag, and the speed multiplier. -/
structure Clock where
  simTime : ℝ
  isPlaying : Bool
  speed : ℝ

/-- One animation-loop tick (`animate`, lines 558-566): while playing,
`simulationTime += realDeltaSeconds * speed`; while paused, no change. -/
noncomputable def tick (c : Clock) (delta : ℝ) : Clock :=
  if c.isPlaying then { c with simTime := c.simTime + delta * c.speed } else c

/-- A timeline scrub / event jump (`setSimulationTime(value)`): absolute set
of `simulationTime`, independent of the play/pause flag. -/
noncomputable def scrub (c : Clock) (v : ℝ) : Clock :=
  { c with simTime := v }

/-- Folding a sequence of tick deltas through the clock. -/
noncomputable def runTicks (c : Clock) (ds : List ℝ) : Clock :=
  ds.foldl tick c

/-- Everything the scene reads from one frame: all planet positions plus the
comet position, as a function of the clock state. -/
noncomputable def framePositions (c : Clock) : List Vec3 × Vec3 :=
  (PLANETS.map (fun p => planetPosition p c.simTime), cometPosition c.simTime)

/-- The three-angle rotation used by `calculateOrbitalPosition` preserves the
squared norm: a pure polynomial identity given the two Pythagorean relations
for the node angle and the inclination. -/
theorem rotation_norm_sq (sO cO so co si ci X Y : ℝ)
    (h1 : sO ^ 2 + cO ^ 2 = 1) (h2 : si ^ 2 + ci ^ 2 = 1)
    (h3 : so ^ 2 + co ^ 2 = 1) :
    ((cO * co - sO * so * ci) * X + (-cO * so - sO * co * ci) * Y) ^ 2 +
      ((sO * co + cO * so * ci) * X + (-sO * so + cO * co * ci) * Y) ^ 2 +
      ((so * si) * X + (co * si) * Y) ^ 2 = X ^ 2 + Y ^ 2 := by
  linear_combination
    (co ^ 2 * X ^ 2 + so ^ 2 * ci ^ 2 * X ^ 2 +
      (so ^ 2 + co ^ 2 * ci ^ 2) * Y ^ 2 +
      2 * so * co * (ci ^ 2 - 1) * X * Y) * h1 +
    (so * X + co * Y) ^ 2 * h2 + (X ^ 2 + Y ^ 2) * h3

/-- The scene-space length of `calculateOrbitalPosition` is `AU_SCALE` times
the absolute conic radius, for every input. -/
theorem calcPos_length (A e nu om Om inc : ℝ) :
    (calculateOrbitalPosition A e nu om Om inc).length =
      AU_SCALE * |orbitalRadius A e nu| := by
  unfold calculateOrbitalPosition Vec3.length AU_SCALE
  set r := orbitalRadius A e nu with hr
  have hrot := rotation_norm_sq (Real.sin (Om * DEG_TO_RAD))
    (Real.cos (Om * DEG_TO_RAD)) (Real.sin (om * DEG_TO_RAD))
    (Real.cos (om * DEG_TO_RAD)) (Real.sin (inc * DEG_TO_RAD))
    (Real.cos (inc * DEG_TO_RAD)) (r * Real.cos nu) (r * Real.sin nu)
    (Real.sin_sq_add_cos_sq _) (Real.sin_sq_add_cos_sq _)
    (Real.sin_sq_add_cos_sq _)
  have hnu : (r * Real.cos nu) ^ 2 + (r * Real.sin nu) ^ 2 = r ^ 2 := by
    have := Real.sin_sq_add_cos_sq nu
    nlinarith [this]
  have : ∀ xx yy zz : ℝ, xx ^ 2 + yy ^ 2 + zz ^ 2 = r ^ 2 →
      Real.sqrt ((xx * 2) ^ 2 + (zz * 2) ^ 2 + (yy * 2) ^ 2) = 2 * |r| := by
    intro xx yy zz h
    have h4 : (xx * 2) ^ 2 + (zz * 2) ^ 2 + (yy * 2) ^ 2 = (2 * |r|) ^ 2 := by
      have habs : |r| ^ 2 = r ^ 2 := sq_abs r
      nlinarith [h, habs]
    rw [h4, Real.sqrt_sq (by positivity)]
  apply this
  nlinarith [hrot, hnu]

/-- `atan2 0 x = 0` whenever `x > 0` (the JS convention used at perihelion). -/
theorem atan2_zero_pos (x : ℝ) (hx : 0 < x) : atan2 0 x = 0 := by
  unfold atan2
  rw [if_pos hx, zero_div, Real.arctan_zero]

/-- A single pass of the elliptical loop from `E = M = 0` computes a zero
step and breaks at once, so the solver returns `0` for every eccentricity. -/
theorem solveKeplerEllipse_zero (e : ℝ) : solveKeplerEllipse 0 e = 0 := by
  unfold solveKeplerEllipse
  have hstep : ellipseStep 0 e 0 = 0 := by
    unfold ellipseStep ellipseDenom
    simp
  show keplerELoop 0 e keplerTol (99 + 1) 0 = 0
  rw [keplerELoop]
  simp only [hstep, sub_zero, abs_zero]
  rw [if_pos (by unfold keplerTol; norm_num)]

/-- The hyperbolic solver likewise returns `0` on mean anomaly `0`. -/
theorem solveKeplerHyperbola_zero (e : ℝ) : solveKeplerHyperbola 0 e = 0 := by
  unfold solveKeplerHyperbola
  have hstep : hyperbolaStep 0 e 0 = 0 := by
    unfold hyperbolaStep hyperbolaDenom
    simp
  show keplerHLoop 0 e keplerTol (99 + 1) 0 = 0
  rw [keplerHLoop]
  simp only [hstep, sub_zero, abs_zero]
  rw [if_pos (by unfold keplerTol; norm_num)]

/-- True anomaly of the anomaly `0` is `0` in the hyperbolic branch. -/
theorem trueAnomalyFromE_zero_hyper (e : ℝ) (he : 1 < e) :
    trueAnomalyFromE 0 e = 0 := by
  unfold trueAnomalyFromE
  rw [if_neg (by linarith)]
  have h0 : (0 : ℝ) / 2 = 0 := by norm_num
  rw [h0, Real.sinh_zero, Real.cosh_zero, mul_zero, mul_one,
    atan2_zero_pos _ (Real.sqrt_pos.mpr (by linarith)), mul_zero]

/-- True anomaly of the anomaly `0` is `0` in the elliptical branch. -/
theorem trueAnomalyFromE_zero_ellip (e : ℝ) (he : e < 1) :
    trueAnomalyFromE 0 e = 0 := by
  unfold trueAnomalyFromE
  rw [if_pos he]
  have h0 : (0 : ℝ) / 2 = 0 := by norm_num
  rw [h0, Real.sin_zero, Real.cos_zero, mul_zero, mul_one,
    atan2_zero_pos _ (Real.sqrt_pos.mpr (by linarith)), mul_zero]

/-- At true anomaly `0` the elliptical conic radius is `|a| * (1 - e)`. -/
theorem orbitalRadius_zero_ellip (a e : ℝ) (h0 : 0 ≤ e) (h1 : e < 1) :
    orbitalRadius a e 0 = |a| * (1 - e) := by
  unfold orbitalRadius
  rw [if_pos h1, Real.cos_zero, mul_one]
  have hne : 1 + e ≠ 0 := by linarith
  field_simp
  ring

/-- At true anomaly `0` the hyperbolic conic radius is `|a| * (e - 1)`. -/
theorem orbitalRadius_zero_hyper (a e : ℝ) (h1 : 1 < e) :
    orbitalRadius a e 0 = |a| * (e - 1) := by
  unfold orbitalRadius
  rw [if_neg (by linarith), Real.cos_zero, mul_one]
  have hne : 1 + e ≠ 0 := by linarith
  field_simp
  ring

/-- C7: for all inputs, the output vector of `calculateOrbitalPosition` maps
axes as scene X = heliocentric x, scene Y (vertical) = heliocentric z,
scene Z = heliocentric y, each scaled by `AU_SCALE = 2` scene units per AU. -/
theorem c7_axis_swap_and_scale
    (A e nu om Om inc : ℝ) :
    (calculateOrbitalPosition A e nu om Om inc).x =
      2 * (helioCoords A e nu om Om inc).1 ∧
    (calculateOrbitalPosition A e nu om Om inc).y =
      2 * (helioCoords A e nu om Om inc).2.2 ∧
    (calculateOrbitalPosition A e nu om Om inc).z =
      2 * (helioCoords A e nu om Om inc).2.1 ∧
    AU_SCALE = 2 := by
  unfold calculateOrbitalPosition helioCoords AU_SCALE
  refine ⟨by ring, by ring, by ring, rfl⟩

/-- C9: a clock tick adds exactly `delta * speed` to `simulationTime` while
playing, leaves it unchanged while paused, and a scrub sets it to the given
absolute value whether playing or paused. -/
theorem c9_clock_transitions :
    (∀ (c : Clock) (d : ℝ), c.isPlaying = true →
      (tick c d).simTime = c.simTime + d * c.speed) ∧
    (∀ (c : Clock) (d : ℝ), c.isPlaying = false →
      (tick c d).simTime = c.simTime) ∧
    (∀ (c : Clock) (v : ℝ), (scrub c v).simTime = v) := by
  refine ⟨?_, ?_, ?_⟩
  · intro c d h
    unfold tick
    rw [if_pos h]
  · intro c d h
    unfold tick
    rw [h]
    simp
  · intro c v
    rfl

/-- Witness for C9 at a concrete running clock, a concrete paused clock, and
a concrete scrub. -/
theorem c9_clock_transitions_witness :
    (tick ⟨0, true, 2⟩ 3).simTime = 0 + 3 * 2 ∧
    (tick ⟨5, false, 2⟩ 3).simTime = 5 ∧
    (scrub ⟨5, false, 2⟩ 7).simTime = 7 :=
  ⟨c9_clock_transitions.1 ⟨0, true, 2⟩ 3 rfl,
   c9_clock_transitions.2.1 ⟨5, false, 2⟩ 3 rfl,
   c9_clock_transitions.2.2 ⟨5, false, 2⟩ 7⟩

/-- C10: under the matching-regime precondition, the Newton denominators are
bounded below by `1 - e` (elliptical, `0 ≤ e < 1`) and `e - 1` (hyperbolic,
`e > 1`), hence strictly positive at every real iterate, so the solvers never
divide by zero. -/
theorem c10_newton_denominators_positive :
    (∀ e E : ℝ, 0 ≤ e → e < 1 →
      1 - e ≤ ellipseDenom e E ∧ 0 < ellipseDenom e E) ∧
    (∀ e H : ℝ, 1 < e →
      e - 1 ≤ hyperbolaDenom e H ∧ 0 < hyperbolaDenom e H) := by
  constructor
  · intro e E h0 h1
    unfold ellipseDenom
    have hc := Real.cos_le_one E
    have hc2 := Real.neg_one_le_cos E
    constructor <;> nlinarith
  · intro e H h1
    unfold hyperbolaDenom
    have hc := Real.one_le_cosh H
    constructor <;> nlinarith

/-- Witness for C10 at `e = 1/2, E = 0` and `e = 2, H = 0`. -/
theorem c10_newton_denominators_positive_witness :
    (1 - (1 / 2 : ℝ) ≤ ellipseDenom (1 / 2) 0 ∧ 0 < ellipseDenom (1 / 2) 0) ∧
    ((2 : ℝ) - 1 ≤ hyperbolaDenom 2 0 ∧ 0 < hyperbolaDenom 2 0) :=
  ⟨c10_newton_denominators_positive.1 (1 / 2) 0 (by norm_num) (by norm_num),
   c10_newton_denominators_positive.2 2 0 (by norm_num)⟩

/-- C5: at true anomaly `0` the radius inside `calculateOrbitalPosition` is
`|a|(1-e)` for `e < 1` and `|a|(e-1)` for `e > 1`; with Earth's elements at
`simulationTime = 0` the planet provider's mean anomaly is `0` and the
heliocentric radius is `0.983` AU. -/
theorem c5_perihelion_radius :
    (∀ a e : ℝ, 0 ≤ e → e < 1 → orbitalRadius a e 0 = |a| * (1 - e)) ∧
    (∀ a e : ℝ, 1 < e → orbitalRadius a e 0 = |a| * (e - 1)) ∧
    planetMeanAnomaly earth 0 = 0 ∧
    planetHelioRadius earth 0 = 0.983 := by
  have hM : planetMeanAnomaly earth 0 = 0 := by
    unfold planetMeanAnomaly jsMod jsTrunc
    simp
  refine ⟨orbitalRadius_zero_ellip, orbitalRadius_zero_hyper, hM, ?_⟩
  have hecc : earth.eccentricity = 0.017 := rfl
  have hsma : earth.semiMajorAxis = 1.000 := rfl
  unfold planetHelioRadius planetPosition
  rw [hM, hecc, hsma, solveKeplerEllipse_zero,
    trueAnomalyFromE_zero_ellip _ (by norm_num), calcPos_length,
    orbitalRadius_zero_ellip _ _ (by norm_num) (by norm_num),
    abs_of_nonneg (by norm_num : (0 : ℝ) ≤ |(1.000 : ℝ)| * (1 - 0.017))]
  unfold AU_SCALE
  rw [abs_of_nonneg (by norm_num : (0 : ℝ) ≤ (1.000 : ℝ))]
  norm_num

/-- Witness for C5's quantified parts at `a = 1, e = 1/2` and `a = 1, e = 2`. -/
theorem c5_perihelion_radius_witness :
    orbitalRadius 1 (1 / 2) 0 = |(1 : ℝ)| * (1 - 1 / 2) ∧
    orbitalRadius 1 2 0 = |(1 : ℝ)| * (2 - 1) :=
  ⟨c5_perihelion_radius.1 1 (1 / 2) (by norm_num) (by norm_num),
   c5_perihelion_radius.2.1 1 2 (by norm_num)⟩

/-- At the simulation time `120.5` days (whose calendar instant is exactly the
perihelion date 2025-10-29T12:00:00Z), the comet provider's mean anomaly is
zero and its computed distance from the Sun is `|a| * (e - 1)`. -/
theorem cometDistance_at_perihelion :
    cometDistanceFromSun 120.5 =
      |ATLAS_semiMajorAxis| * (ATLAS_eccentricity - 1) := by
  have hdays : cometDaysSincePerihelion 120.5 = 0 := by
    unfold cometDaysSincePerihelion epochMs perihelionMs
    norm_num
  have hM : cometMeanAnomaly 120.5 = 0 := by
    unfold cometMeanAnomaly
    rw [hdays]
    ring
  have hE : (1 : ℝ) < ATLAS_eccentricity := by
    unfold ATLAS_eccentricity
    norm_num
  have hnn : (0 : ℝ) ≤ |ATLAS_semiMajorAxis| * (ATLAS_eccentricity - 1) :=
    mul_nonneg (abs_nonneg _) (by linarith)
  unfold cometDistanceFromSun cometPosition
  rw [hM, solveKeplerHyperbola_zero, trueAnomalyFromE_zero_hyper _ hE,
    calcPos_length, orbitalRadius_zero_hyper _ _ hE, abs_of_nonneg hnn]
  unfold AU_SCALE
  ring

/-- C4 counterexample: at the exact perihelion instant the computed distance
from the Sun differs from `1.35` AU by more than the `1e-6` round-trip
tolerance (it equals `|a|(e-1) ≈ 1.35626` AU). -/
theorem c4_perihelion_distance_counterexample :
    |cometDistanceFromSun 120.5 - 1.35| > 1e-6 := by
  rw [cometDistance_at_perihelion]
  unfold ATLAS_semiMajorAxis ATLAS_eccentricity
  rw [show |(-0.26391591751781 : ℝ)| = 0.26391591751781 by
    rw [abs_of_neg (by norm_num)]; norm_num]
  rw [abs_of_nonneg (by norm_num : (0 : ℝ) ≤ 0.26391591751781 * (6.139 - 1) - 1.35)]
  norm_num

/-- C4 amended: at the perihelion instant the computed distance equals
`|a|(e-1)` exactly, which is within `0.007` AU of the tabulated perihelion
distance `1.35` AU (but not within solver tolerance). -/
theorem c4_perihelion_distance_amended :
    cometDistanceFromSun 120.5 =
      |ATLAS_semiMajorAxis| * (ATLAS_eccentricity - 1) ∧
    |cometDistanceFromSun 120.5 - 1.35| < 0.007 := by
  refine ⟨cometDistance_at_perihelion, ?_⟩
  rw [cometDistance_at_perihelion]
  unfold ATLAS_semiMajorAxis ATLAS_eccentricity
  rw [show |(-0.26391591751781 : ℝ)| = 0.26391591751781 by
    rw [abs_of_neg (by norm_num)]; norm_num]
  rw [abs_of_nonneg (by norm_num : (0 : ℝ) ≤ 0.26391591751781 * (6.139 - 1) - 1.35)]
  norm_num

/-- Running a list of tick deltas through a playing clock adds exactly the sum
of the increments `delta * speed`, and never touches the play flag or speed. -/
theorem runTicks_spec :
    ∀ (ds : List ℝ) (c : Clock), c.isPlaying = true →
      (runTicks c ds).simTime =
        c.simTime + (ds.map (fun d => d * c.speed)).sum ∧
      (runTicks c ds).isPlaying = true ∧ (runTicks c ds).speed = c.speed := by
  intro ds
  induction ds with
  | nil =>
    intro c h
    refine ⟨by simp [runTicks], by simp [runTicks, h], by simp [runTicks]⟩
  | cons d ds ih =>
    intro c h
    have ht : tick c d = ⟨c.simTime + d * c.speed, c.isPlaying, c.speed⟩ := by
      unfold tick
      rw [if_pos h]
    have hrun : runTicks c (d :: ds) = runTicks (tick c d) ds := by
      unfold runTicks
      rw [List.foldl_cons]
    have hplay : (tick c d).isPlaying = true := by rw [ht]; exact h
    have hs := ih (tick c d) hplay
    refine ⟨?_, by rw [hrun]; exact hs.2.1, by rw [hrun, hs.2.2, ht]⟩
    rw [hrun, hs.1, ht]
    simp only [List.map_cons, List.sum_cons]
    ring

/-- C3: frame positions are a pure function of the clock's `simulationTime`
(no hidden per-body state), and reaching a time by a sequence of running
ticks yields exactly the positions of a single absolute scrub to the summed
time. -/
theorem c3_determinism_and_scrub_equivalence :
    (∀ c c2 : Clock, c.simTime = c2.simTime →
      framePositions c = framePositions c2) ∧
    (∀ (ds : List ℝ) (c : Clock), c.isPlaying = true →
      (runTicks c ds).simTime =
        c.simTime + (ds.map (fun d => d * c.speed)).sum ∧
      framePositions (runTicks c ds) =
        framePositions
          (scrub c (c.simTime + (ds.map (fun d => d * c.speed)).sum))) := by
  have hpure : ∀ c c2 : Clock, c.simTime = c2.simTime →
      framePositions c = framePositions c2 := by
    intro c c2 h
    unfold framePositions
    rw [h]
  refine ⟨hpure, ?_⟩
  intro ds c h
  have hs := runTicks_spec ds c h
  exact ⟨hs.1, hpure _ _ (by rw [hs.1]; rfl)⟩

/-- Witness for C3: two ticks of 1 and 2 seconds at speed 3 from time 0 agree
with one scrub to the summed time. -/
theorem c3_determinism_and_scrub_equivalence_witness :
    (runTicks ⟨0, true, 3⟩ [1, 2]).simTime =
      0 + ([1, 2].map (fun d => d * (3 : ℝ))).sum ∧
    framePositions (runTicks ⟨0, true, 3⟩ [1, 2]) =
      framePositions
        (scrub ⟨0, true, 3⟩ (0 + ([1, 2].map (fun d => d * (3 : ℝ))).sum)) :=
  c3_determinism_and_scrub_equivalence.2 [1, 2] ⟨0, true, 3⟩ rfl

/-- The radius the transform computes for the comet's elements agrees with
the sampler's own radius formula (both take the hyperbolic branch). -/
theorem atlas_orbitalRadius_eq (nu : ℝ) :
    orbitalRadius ATLAS_semiMajorAxis ATLAS_eccentricity nu =
      cometPathRadius nu := by
  unfold orbitalRadius cometPathRadius ATLAS_eccentricity
  rw [if_neg (by norm_num)]

/-- C8: the hyperbolic path sampler generates exactly 201 true-anomaly
samples, uniformly spaced over the symmetric range
`[-0.95 acos(-1/e), +0.95 acos(-1/e)]`; a sample is emitted iff its radius
lies in `(0, 20)` AU, and every emitted point's unscaled heliocentric radius
(scene length over `AU_SCALE`) lies strictly between 0 and 20 AU. -/
theorem c8_hyperbolic_path_sampler :
    ((List.range 201).map cometPathNu).length = 201 ∧
    cometPathNuMax = 0.95 * Real.arccos (-1 / 6.139) ∧
    (∀ k : ℕ, cometPathNu (k + 1) - cometPathNu k = cometPathNuMax / 100) ∧
    (∀ k : ℕ, k ≤ 200 → cometPathNu (200 - k) = -(cometPathNu k)) ∧
    cometPathNu 0 = -cometPathNuMax ∧ cometPathNu 200 = cometPathNuMax ∧
    (∀ v : Vec3, v ∈ cometPathPoints ↔ ∃ k : ℕ, k < 201 ∧
      (0 < cometPathRadius (cometPathNu k) ∧
        cometPathRadius (cometPathNu k) < 20) ∧
      v = calculateOrbitalPosition ATLAS_semiMajorAxis ATLAS_eccentricity
        (cometPathNu k) ATLAS_argumentOfPerihelion
        ATLAS_longitudeOfAscendingNode ATLAS_inclina) ∧
    (∀ v ∈ cometPathPoints,
      0 < v.length / AU_SCALE ∧ v.length / AU_SCALE < 20) := by
  have hmem : ∀ v : Vec3, v ∈ cometPathPoints ↔ ∃ k : ℕ, k < 201 ∧
      (0 < cometPathRadius (cometPathNu k) ∧
        cometPathRadius (cometPathNu k) < 20) ∧
      v = calculateOrbitalPosition ATLAS_semiMajorAxis ATLAS_eccentricity
        (cometPathNu k) ATLAS_argumentOfPerihelion
        ATLAS_longitudeOfAscendingNode ATLAS_inclina := by
    intro v
    unfold cometPathPoints
    rw [List.mem_filterMap]
    constructor
    · rintro ⟨k, hk, hf⟩
      rw [List.mem_range] at hk
      by_cases hc : 0 < cometPathRadius (cometPathNu k) ∧
          cometPathRadius (cometPathNu k) < 20
      · rw [if_pos hc] at hf
        exact ⟨k, hk, hc, (Option.some_inj.mp hf).symm⟩
      · rw [if_neg hc] at hf
        exact absurd hf (by simp)
    · rintro ⟨k, hk, hc, rfl⟩
      exact ⟨k, List.mem_range.mpr hk, by rw [if_pos hc]⟩
  refine ⟨by simp, ?_, ?_, ?_, ?_, ?_, hmem, ?_⟩
  · unfold cometPathNuMax ATLAS_eccentricity
    ring
  · intro k
    unfold cometPathNu
    push_cast
    ring
  · intro k hk
    unfold cometPathNu
    rw [Nat.cast_sub hk]
    push_cast
    ring
  · unfold cometPathNu
    norm_num
  · unfold cometPathNu
    norm_num
  · intro v hv
    obtain ⟨k, _, hc, rfl⟩ := (hmem v).mp hv
    rw [calcPos_length, atlas_orbitalRadius_eq,
      abs_of_pos hc.1]
    unfold AU_SCALE
    have h2 : (2 : ℝ) * cometPathRadius (cometPathNu k) / 2 =
        cometPathRadius (cometPathNu k) := by ring
    rw [h2]
    exact hc

/-- Witness for C8: the symmetry instance at `k = 0`, and the emitted sample
at `k = 100` (true anomaly 0, radius `≈ 1.356` AU) has its unscaled radius in
`(0, 20)`. -/
theorem c8_hyperbolic_path_sampler_witness :
    cometPathNu (200 - 0) = -(cometPathNu 0) ∧
    (0 < (calculateOrbitalPosition ATLAS_semiMajorAxis ATLAS_eccentricity
        (cometPathNu 100) ATLAS_argumentOfPerihelion
        ATLAS_longitudeOfAscendingNode ATLAS_inclina).length / AU_SCALE ∧
      (calculateOrbitalPosition ATLAS_semiMajorAxis ATLAS_eccentricity
        (cometPathNu 100) ATLAS_argumentOfPerihelion
        ATLAS_longitudeOfAscendingNode ATLAS_inclina).length / AU_SCALE < 20) := by
  have hr : 0 < cometPathRadius (cometPathNu 100) ∧
      cometPathRadius (cometPathNu 100) < 20 := by
    have h100 : cometPathNu 100 = 0 := by
      unfold cometPathNu
      norm_num
    rw [h100]
    unfold cometPathRadius ATLAS_semiMajorAxis ATLAS_eccentricity
    rw [Real.cos_zero]
    rw [show |(-0.26391591751781 : ℝ)| = 0.26391591751781 by
      rw [abs_of_neg (by norm_num)]; norm_num]
    norm_num
  refine ⟨c8_hyperbolic_path_sampler.2.2.2.1 0 (by norm_num), ?_⟩
  exact c8_hyperbolic_path_sampler.2.2.2.2.2.2.2 _
    ((c8_hyperbolic_path_sampler.2.2.2.2.2.2.1 _).mpr
      ⟨100, by norm_num, hr, rfl⟩)

/-- Shifting both the mean anomaly and the iterate by `2π` leaves the
elliptical Newton step unchanged. -/
theorem ellipseStep_shift (M e E : ℝ) :
    ellipseStep (M + 2 * Real.pi) e (E + 2 * Real.pi) = ellipseStep M e E := by
  unfold ellipseStep ellipseDenom
  rw [Real.sin_add_two_pi, Real.cos_add_two_pi]
  ring_nf

/-- The whole elliptical Newton loop is equivariant under a `2π` shift of
mean anomaly and starting iterate: every iterate, every break decision, and
the final value shift together. -/
theorem keplerELoop_shift (M e tol : ℝ) :
    ∀ (n : ℕ) (E : ℝ),
      keplerELoop (M + 2 * Real.pi) e tol n (E + 2 * Real.pi) =
        keplerELoop M e tol n E + 2 * Real.pi := by
  intro n
  induction n with
  | zero =>
    intro E
    rfl
  | succ n ih =>
    intro E
    rw [keplerELoop, keplerELoop, ellipseStep_shift]
    have harg : E + 2 * Real.pi - ellipseStep M e E =
        E - ellipseStep M e E + 2 * Real.pi := by ring
    rw [harg]
    by_cases hb : |ellipseStep M e E| < tol
    · rw [if_pos hb, if_pos hb]
    · rw [if_neg hb, if_neg hb, ih]

/-- `solveKeplerEllipse` shifts by `2π` when the mean anomaly does. -/
theorem solveKeplerEllipse_shift (M e : ℝ) :
    solveKeplerEllipse (M + 2 * Real.pi) e =
      solveKeplerEllipse M e + 2 * Real.pi := by
  unfold solveKeplerEllipse
  exact keplerELoop_shift M e keplerTol 100 M

/-- Negating both arguments of `atan2` moves the angle by `±π`, so its double
has the same cosine and sine: the case `x ≤ 0`. -/
theorem cos_sin_two_atan2_neg_aux (y x : ℝ) (hx : x ≤ 0) :
    Real.cos (2 * atan2 (-y) (-x)) = Real.cos (2 * atan2 y x) ∧
    Real.sin (2 * atan2 (-y) (-x)) = Real.sin (2 * atan2 y x) := by
  rcases eq_or_lt_of_le hx with heq | hlt
  · subst heq
    unfold atan2
    rw [neg_zero]
    simp only [lt_self_iff_false, if_false]
    rcases lt_trichotomy y 0 with hy | hy | hy
    · rw [if_pos (by linarith : (0 : ℝ) < -y),
        if_neg (by linarith : ¬ (0 : ℝ) < y), if_pos hy]
      constructor
      · rw [show 2 * (Real.pi / 2) = Real.pi by ring,
          show 2 * -(Real.pi / 2) = -Real.pi by ring, Real.cos_neg]
      · rw [show 2 * (Real.pi / 2) = Real.pi by ring,
          show 2 * -(Real.pi / 2) = -Real.pi by ring, Real.sin_neg,
          Real.sin_pi, neg_zero]
    · subst hy
      rw [neg_zero]
      exact ⟨rfl, rfl⟩
    · rw [if_neg (by linarith : ¬ (0 : ℝ) < -y),
        if_pos (by linarith : -y < (0 : ℝ)), if_pos hy]
      constructor
      · rw [show 2 * (Real.pi / 2) = Real.pi by ring,
          show 2 * -(Real.pi / 2) = -Real.pi by ring, Real.cos_neg]
      · rw [show 2 * (Real.pi / 2) = Real.pi by ring,
          show 2 * -(Real.pi / 2) = -Real.pi by ring, Real.sin_neg,
          Real.sin_pi, neg_zero]
  · have hx2 : 0 < -x := by linarith
    have hnd : -y / -x = y / x := neg_div_neg_eq y x
    unfold atan2
    rw [if_pos hx2, if_neg (by linarith : ¬ (0 : ℝ) < x), if_pos hlt, hnd]
    by_cases hy : 0 ≤ y
    · rw [if_pos hy]
      constructor
      · rw [show 2 * (Real.arctan (y / x) + Real.pi) =
            2 * Real.arctan (y / x) + 2 * Real.pi by ring,
          Real.cos_add_two_pi]
      · rw [show 2 * (Real.arctan (y / x) + Real.pi) =
            2 * Real.arctan (y / x) + 2 * Real.pi by ring,
          Real.sin_add_two_pi]
    · rw [if_neg hy]
      constructor
      · rw [show 2 * (Real.arctan (y / x) - Real.pi) =
            2 * Real.arctan (y / x) - 2 * Real.pi by ring,
          Real.cos_sub_two_pi]
      · rw [show 2 * (Real.arctan (y / x) - Real.pi) =
            2 * Real.arctan (y / x) - 2 * Real.pi by ring,
          Real.sin_sub_two_pi]

/-- Negating both arguments of `atan2` preserves cosine and sine of the
doubled angle, for every `(y, x)`. -/
theorem cos_sin_two_atan2_neg (y x : ℝ) :
    Real.cos (2 * atan2 (-y) (-x)) = Real.cos (2 * atan2 y x) ∧
    Real.sin (2 * atan2 (-y) (-x)) = Real.sin (2 * atan2 y x) := by
  rcases le_or_lt x 0 with hx | hx
  · exact cos_sin_two_atan2_neg_aux y x hx
  · have h := cos_sin_two_atan2_neg_aux (-y) (-x) (by linarith)
    rw [neg_neg, neg_neg] at h
    exact ⟨h.1.symm, h.2.symm⟩

/-- Shifting the eccentric anomaly by `2π` leaves the cosine and sine of the
computed true anomaly unchanged (elliptical branch). -/
theorem trueAnomaly_shift (E e : ℝ) (he : e < 1) :
    Real.cos (trueAnomalyFromE (E + 2 * Real.pi) e) =
      Real.cos (trueAnomalyFromE E e) ∧
    Real.sin (trueAnomalyFromE (E + 2 * Real.pi) e) =
      Real.sin (trueAnomalyFromE E e) := by
  unfold trueAnomalyFromE
  rw [if_pos he, if_pos he]
  have h2 : (E + 2 * Real.pi) / 2 = E / 2 + Real.pi := by ring
  rw [h2, Real.sin_add_pi, Real.cos_add_pi, mul_neg, mul_neg]
  exact cos_sin_two_atan2_neg _ _

/-- `calculateOrbitalPosition` depends on the true anomaly only through its
cosine and sine. -/
theorem calcPos_congr_trig (A e om Om inc : ℝ) {nu nu2 : ℝ}
    (hc : Real.cos nu = Real.cos nu2) (hs : Real.sin nu = Real.sin nu2) :
    calculateOrbitalPosition A e nu om Om inc =
      calculateOrbitalPosition A e nu2 om Om inc := by
  unfold calculateOrbitalPosition orbitalRadius
  rw [hc, hs]

/-- `Math.trunc` moves by exactly one when its argument moves by one, except
across the sign boundary `(-1, 0)` where it stays put. -/
theorem jsTrunc_add_one (x : ℝ) :
    jsTrunc (x + 1) = jsTrunc x + 1 ∨ jsTrunc (x + 1) = jsTrunc x := by
  unfold jsTrunc
  by_cases h0 : 0 ≤ x
  · rw [if_pos h0, if_pos (by linarith : (0 : ℝ) ≤ x + 1)]
    left
    rw [Int.floor_add_one]
    push_cast
    ring
  · push_neg at h0
    by_cases h1 : 0 ≤ x + 1
    · rw [if_neg (not_le.mpr h0), if_pos h1]
      have hx1 : -1 ≤ x := by linarith
      rcases eq_or_lt_of_le hx1 with heq | hlt
      · left
        rw [← heq, show (-1 : ℝ) + 1 = 0 by ring,
          show ((-1 : ℝ)) = ((-1 : ℤ) : ℝ) from by norm_num,
          Int.ceil_intCast, Int.floor_zero]
        norm_num
      · right
        have hf : ⌊x + 1⌋ = 0 :=
          Int.floor_eq_zero_iff.mpr ⟨h1, by linarith⟩
        have hc : ⌈x⌉ = 0 :=
          Int.ceil_eq_zero_iff.mpr ⟨by linarith, by linarith⟩
        rw [hf, hc]
    · push_neg at h1
      rw [if_neg (not_le.mpr h0), if_neg (not_le.mpr h1)]
      left
      rw [Int.ceil_add_one]
      push_cast
      ring

/-- The JS remainder after adding one modulus either cancels the added
modulus or carries it through unchanged. -/
theorem jsMod_add_cancel (a m : ℝ) (hm : m ≠ 0) :
    jsMod (a + m) m = jsMod a m ∨ jsMod (a + m) m = jsMod a m + m := by
  unfold jsMod
  have hdiv : (a + m) / m = a / m + 1 := by field_simp
  rw [hdiv]
  rcases jsTrunc_add_one (a / m) with h | h
  · left
    rw [h]
    ring
  · right
    rw [h]
    ring

/-- Advancing a planet's clock by one period moves its mean anomaly by `0`
or by exactly `2π`. -/
theorem planetMeanAnomaly_period_shift (p : PlanetData) (t : ℝ)
    (hp : p.period ≠ 0) :
    planetMeanAnomaly p (t + p.period) = planetMeanAnomaly p t ∨
    planetMeanAnomaly p (t + p.period) =
      planetMeanAnomaly p t + 2 * Real.pi := by
  unfold planetMeanAnomaly
  have harg : 2 * Real.pi / p.period * (t + p.period) =
      2 * Real.pi / p.period * t + 2 * Real.pi := by
    field_simp
    ring
  rw [harg]
  exact jsMod_add_cancel _ _ (ne_of_gt (by positivity))

/-- C6: every planet's computed position is periodic in its orbital period —
exactly, in the real-number model, not merely within floating tolerance. -/
theorem c6_planet_periodicity (p : PlanetData) (hper : 0 < p.period)
    (he : p.eccentricity < 1) (t : ℝ) :
    planetPosition p (t + p.period) = planetPosition p t := by
  unfold planetPosition
  rcases planetMeanAnomaly_period_shift p t (ne_of_gt hper) with h | h
  · rw [h]
  · rw [h, solveKeplerEllipse_shift]
    exact calcPos_congr_trig _ _ _ _ _
      (trueAnomaly_shift _ _ he).1 (trueAnomaly_shift _ _ he).2

/-- Witness for C6: Earth's position one period after the epoch equals its
position at the epoch. -/
theorem c6_planet_periodicity_witness :
    planetPosition earth (0 + earth.period) = planetPosition earth 0 :=
  c6_planet_periodicity earth (by norm_num [earth]) (by norm_num [earth]) 0

end FkgptOrbit
